import Mathlib

/-!
Shallow embedding of the sanitizer repository (src/sanitizer/schema.py and
src/sanitizer/exceptions.py): a declarative validation/normalization engine
driven by type annotations.  Python runtime values are modelled by the
inductive type Value, Python type annotations by TypeSpec, and the
recursive dispatcher Schema._check_field_type together with its resolver
methods by the mutually recursive functions below.
-/

set_option maxHeartbeats 1000000
set_option linter.unreachableTactic false
set_option linter.unusedTactic false

namespace Sanitizer

/-- The Python scalar classes exercised by the schemas under test.
The source accepts any Python class here; these four are the ones the
specification's scalar claims quantify over. -/
inductive PyClass where
  | int
  | bool
  | float
  | str
deriving DecidableEq, Repr

/-- Python runtime values in the universe the sanitizer manipulates.
Floats are opaque (payload is an identifier, never computed with);
dict models a Python dict with string keys; inst models an
already-constructed Schema instance with its attribute mapping;
ellipsis is the Python Ellipsis sentinel the source stores for failed
fields. -/
inductive Value where
  | int (n : Int)
  | bool (b : Bool)
  | float (id : Int)
  | str (s : String)
  | none
  | ellipsis
  | list (items : List Value)
  | dict (kvs : List (String × Value))
  | inst (schemaName : String) (fields : List (String × Value))
deriving Repr

/-- type(value).__name__ for the modelled values. -/
def Value.typeName : Value → String
  | .int _ => "int"
  | .bool _ => "bool"
  | .float _ => "float"
  | .str _ => "str"
  | .none => "NoneType"
  | .ellipsis => "ellipsis"
  | .list _ => "list"
  | .dict _ => "dict"
  | .inst n _ => n

/-- T.__name__ for the modelled scalar classes. -/
def PyClass.name : PyClass → String
  | .int => "int"
  | .bool => "bool"
  | .float => "float"
  | .str => "str"

/-- type(value) is exactly T: the runtime type equals the class, with no
subclass leniency.  (This is what the spec asserts scalar checks do.) -/
def Value.hasExactType : Value → PyClass → Bool
  | .int _, .int => true
  | .bool _, .bool => true
  | .float _, .float => true
  | .str _, .str => true
  | _, _ => false

/-- Python's isinstance(value, T) for the modelled classes.  This is what
the source actually calls (schema.py line 172).  The one subclass
relation among the modelled classes is bool <: int, so a bool value is
an instance of int. -/
def Value.isinstanceOf : Value → PyClass → Bool
  | .int _, .int => true
  | .bool _, .int => true
  | .bool _, .bool => true
  | .float _, .float => true
  | .str _, .str => true
  | _, _ => false

/-- Python isinstance(value, list): discriminates the list constructor. -/
def Value.isListV : Value → Bool
  | .list _ => true
  | _ => false

/-- Python isinstance(value, dict): discriminates the dict constructor. -/
def Value.isDictV : Value → Bool
  | .dict _ => true
  | _ => false

/-- Discriminates an already-constructed schema instance. -/
def Value.isInstV : Value → Bool
  | .inst _ _ => true
  | _ => false

/-- A location path segment: Python stores field names (str) and list
indices (int) in the same list. -/
inductive Seg where
  | s (field : String)
  | i (index : Nat)
deriving DecidableEq, Repr

/-- The message of a FieldValidationError, abstracted from the formatted
Russian string the source interpolates to the message class plus the
data interpolated into it (exceptions.py, schema.py).  Distinct
constructors correspond to distinct sentence shapes in the source. -/
inductive Msg where
  | missingField
  | disallowedField
  | typeMismatch (expected actual : String)
  | listTypeMismatch (actual : String)
  | unsupportedSpec
  | unsupportedValueForRecord (expected actual : String)
  | validatorFailure (validatorName reason : String)
deriving DecidableEq, Repr

/-- FieldValidationError (exceptions.py lines 12-21): field name, message
and location path. -/
structure FieldValidationError where
  field : String
  message : Msg
  location : List Seg
deriving DecidableEq, Repr

/-- A custom validator attached through Annotated: a named function that
either transforms the value or fails with a reason.  The source calls
arbitrary Python callables and treats any raised Exception as failure;
the Except result models exactly that observable behaviour, and the
name models validator.__name__. -/
structure Validator where
  vname : String
  run : Value → Except String Value

/-- A field's type annotation, as the dispatcher Schema._check_field_type
distinguishes them: Any, Annotated[base, v1, ...], list[T], a nested
Schema subclass (carrying its declared field plan, the ordered mapping
get_type_hints returns), a plain class, or an unsupported typing
construct. -/
inductive TypeSpec where
  | any
  | annotated (base : TypeSpec) (validators : List Validator)
  | listT (item : TypeSpec)
  | schemaT (name : String) (fields : List (String × TypeSpec))
  | scalar (c : PyClass)
  | unsupported

/-- Python list.insert(1, index) on a location path: inserts the index as
the second segment (after the leading field name); on an empty list
Python appends instead (schema.py line 228). -/
def insertIdx1 (i : Nat) : List Seg → List Seg
  | [] => [Seg.i i]
  | h :: t => h :: Seg.i i :: t

/-- dict lookup fields[f] on the modelled string-keyed mapping. -/
def lookupField (kvs : List (String × Value)) (f : String) : Option Value :=
  (kvs.find? (fun p => p.1 == f)).map Prod.snd

/-- Schema._validate_missing_fields (schema.py lines 68-87): one error
per declared field name absent from the supplied mapping, message class
MissingField, location the one-element path. -/
def validateMissingFields (plan : List (String × TypeSpec))
    (supplied : List (String × Value)) : List FieldValidationError :=
  ((plan.map Prod.fst).filter (fun f => !((supplied.map Prod.fst).contains f))).map
    (fun f => { field := f, message := Msg.missingField, location := [Seg.s f] })

/-- Schema._validate_disallowed_fields (schema.py lines 89-108): one
error per supplied field name not declared by the plan, message class
DisallowedField, location the one-element path. -/
def validateDisallowedFields (plan : List (String × TypeSpec))
    (supplied : List (String × Value)) : List FieldValidationError :=
  ((supplied.map Prod.fst).filter (fun f => !((plan.map Prod.fst).contains f))).map
    (fun f => { field := f, message := Msg.disallowedField, location := [Seg.s f] })

/-- One step of the validator loop in Schema._resolve_validators
(schema.py lines 346-356): value = validator(value) updates the running
value on success; a raised exception leaves the running value unchanged
and appends one converted error. -/
def validatorStep (f : String) (st : Value × List FieldValidationError)
    (val : Validator) : Value × List FieldValidationError :=
  match val.run st.1 with
  | .ok v2 => (v2, st.2)
  | .error reason =>
      (st.1, st.2 ++ [{ field := f,
                        message := Msg.validatorFailure val.vname reason,
                        location := [Seg.s f] }])

mutual

/-- Schema._check_field_type (schema.py lines 135-175) together with the
resolvers it dispatches to.  Returns the normalized value (the source
returns Ellipsis in the failure branches that discard the value) and
the list of validation errors. -/
def checkFieldType (f : String) (v : Value) (t : TypeSpec) :
    Value × List FieldValidationError :=
  match t with
  | .any => (v, [])
  | .annotated base validators =>
      -- Schema._resolve_validators (lines 329-361)
      let r := checkFieldType f v base
      if r.2 = [] then
        let st := validators.foldl (validatorStep f) (r.1, [])
        if st.2 = [] then (st.1, []) else (Value.ellipsis, st.2)
      else (Value.ellipsis, r.2)
  | .listT itemT =>
      -- Schema._resolve_list_type (lines 194-234)
      match v with
      | .list items =>
          let r := checkListItems f itemT items 0
          (Value.list r.1, r.2)
      | _ =>
          (Value.ellipsis,
           [{ field := f, message := Msg.listTypeMismatch v.typeName,
              location := [Seg.s f] }])
  | .schemaT name fields =>
      -- Schema._resolve_schema_type (lines 261-301)
      match v with
      | .inst n kvs =>
          if n = name then (Value.inst n kvs, [])
          else (Value.ellipsis,
                [{ field := f,
                   message := Msg.unsupportedValueForRecord name n,
                   location := [Seg.s f] }])
      | .dict kvs =>
          let r := runValidation fields kvs
          if r.2 = [] then (Value.inst name r.1, [])
          else (Value.ellipsis,
                r.2.map (fun e => { e with location := Seg.s f :: e.location }))
      | _ =>
          (Value.ellipsis,
           [{ field := f,
              message := Msg.unsupportedValueForRecord name v.typeName,
              location := [Seg.s f] }])
  | .scalar c =>
      -- schema.py lines 171-175 and Schema._resolve_scalar_type (303-327)
      if v.isinstanceOf c then (v, [])
      else (Value.ellipsis,
            [{ field := f, message := Msg.typeMismatch c.name v.typeName,
               location := [Seg.s f] }])
  | .unsupported =>
      -- Schema._resolve_unsupported_type (lines 236-259)
      (Value.ellipsis,
       [{ field := f, message := Msg.unsupportedSpec, location := [Seg.s f] }])
termination_by (sizeOf t, 0)
decreasing_by
  all_goals simp_wf
  all_goals first
  | (apply Prod.Lex.right; omega)
  | (apply Prod.Lex.left; omega)

/-- The element loop of Schema._resolve_list_type (schema.py lines
221-232): each element is recursively checked; a failed element
contributes its errors with the index inserted as second path segment
and an Ellipsis placeholder in the result list. -/
def checkListItems (f : String) (itemT : TypeSpec) (items : List Value)
    (i : Nat) : List Value × List FieldValidationError :=
  match items with
  | [] => ([], [])
  | x :: rest =>
      let r := checkFieldType f x itemT
      let tail := checkListItems f itemT rest (i + 1)
      if r.2 = [] then (r.1 :: tail.1, tail.2)
      else (Value.ellipsis :: tail.1, r.2.map (fun e => { e with location := insertIdx1 i e.location }) ++ tail.2)
termination_by (sizeOf itemT, items.length + 1)
decreasing_by
  all_goals simp_wf
  all_goals first
  | (apply Prod.Lex.right; omega)
  | (apply Prod.Lex.left; omega)

/-- Schema._run_validation (schema.py lines 49-66): missing-field errors,
then disallowed-field errors, then the allowed-field pass. -/
def runValidation (plan : List (String × TypeSpec))
    (supplied : List (String × Value)) :
    List (String × Value) × List FieldValidationError :=
  let fieldPass := validateAllowedFields plan supplied
  (fieldPass.1,
   validateMissingFields plan supplied ++ validateDisallowedFields plan supplied
     ++ fieldPass.2)
termination_by (sizeOf plan, 1)
decreasing_by
  all_goals simp_wf
  all_goals first
  | (apply Prod.Lex.right; omega)
  | (apply Prod.Lex.left; omega)

/-- Schema._validate_allowed_fields (schema.py lines 110-133): every
field present in both the plan and the supplied mapping is checked; the
returned value (Ellipsis on failure) is stored unconditionally and the
errors are concatenated.  The source iterates a Python set whose order
is unspecified; the plan's declaration order is used here, and no
verified claim depends on the relative order of different fields. -/
def validateAllowedFields (plan : List (String × TypeSpec))
    (supplied : List (String × Value)) :
    List (String × Value) × List FieldValidationError :=
  match plan with
  | [] => ([], [])
  | (f, t) :: rest =>
      let tail := validateAllowedFields rest supplied
      match lookupField supplied f with
      | Option.none => tail
      | some v =>
          let r := checkFieldType f v t
          ((f, r.1) :: tail.1, r.2 ++ tail.2)
termination_by (sizeOf plan, 0)
decreasing_by
  all_goals simp_wf
  all_goals first
  | (apply Prod.Lex.right; omega)
  | (apply Prod.Lex.left; omega)

end

/-- The Record Builder entry points Schema.__init__ / Schema.validate
(schema.py lines 24-47): run the validation pass, then either return the
instance built from the validated mapping or raise the aggregate
ValidationError carrying the collected errors.  The raise in __init__
happens before the caller can observe the object, so the observable
behaviour is exactly this Except. -/
def validateSchema (name : String) (plan : List (String × TypeSpec))
    (supplied : List (String × Value)) :
    Except (List FieldValidationError) Value :=
  let r := runValidation plan supplied
  if r.2 = [] then Except.ok (Value.inst name r.1) else Except.error r.2

/-- Specification-style rendering of the validator loop of
Schema._resolve_validators: the validators run in declared order; a
successful validator's result becomes the running value; a failing
validator contributes exactly one converted error and leaves the
running value unchanged for the rest of the chain. -/
def chainSpec (f : String) : Value → List Validator → Value × List FieldValidationError
  | v, [] => (v, [])
  | v, val :: rest =>
      match val.run v with
      | .ok v2 => chainSpec f v2 rest
      | .error reason =>
          let p := chainSpec f v rest
          (p.1, { field := f, message := Msg.validatorFailure val.vname reason,
                  location := [Seg.s f] } :: p.2)

/-- Concrete validator used as input data below: rejects non-positive
ints, like the repository's usecase validator v_positive_int. -/
def vPositiveInt : Validator :=
  { vname := "v_positive_int",
    run := fun v =>
      match v with
      | Value.int n =>
          if n ≤ 0 then Except.error "must be > 0" else Except.ok (Value.int n)
      | w => Except.ok w }

/-- Concrete validator: rejects odd ints, like the usecase validator
v_even. -/
def vEven : Validator :=
  { vname := "v_even",
    run := fun v =>
      match v with
      | Value.int n =>
          if n % 2 = 0 then Except.ok (Value.int n) else Except.error "odd value"
      | w => Except.ok w }

/-- Concrete validator: doubles an int; a purely transforming validator. -/
def vDouble : Validator :=
  { vname := "v_double",
    run := fun v =>
      match v with
      | Value.int n => Except.ok (Value.int (2 * n))
      | w => Except.ok w }

/-- Concrete validator that unconditionally raises. -/
def vBoom : Validator :=
  { vname := "v_boom", run := fun _ => Except.error "kaboom" }

theorem foldl_validatorStep_eq_chainSpec (f : String) (vals : List Validator) :
    ∀ (v : Value) (acc : List FieldValidationError),
      vals.foldl (validatorStep f) (v, acc)
        = ((chainSpec f v vals).1, acc ++ (chainSpec f v vals).2) := by
  induction vals with
  | nil => intro v acc; simp [chainSpec]
  | cons val rest ih =>
      intro v acc
      simp only [List.foldl_cons, chainSpec, validatorStep]
      cases h : val.run v with
      | ok v2 => simp [h, ih]
      | error reason => simp [h, ih]

theorem chainSpec_error_shape (f : String) (vals : List Validator) :
    ∀ (v : Value) (e : FieldValidationError), e ∈ (chainSpec f v vals).2 →
      e.field = f ∧ e.location = [Seg.s f] ∧
        ∃ val ∈ vals, ∃ reason, e.message = Msg.validatorFailure val.vname reason := by
  induction vals with
  | nil => intro v e he; simp [chainSpec] at he
  | cons val rest ih =>
      intro v e he
      simp only [chainSpec] at he
      cases h : val.run v with
      | ok v2 =>
          rw [h] at he
          obtain ⟨h1, h2, val2, hval2, r2, hr2⟩ := ih v2 e he
          exact ⟨h1, h2, val2, List.mem_cons_of_mem _ hval2, r2, hr2⟩
      | error reason =>
          rw [h] at he
          rcases List.mem_cons.mp he with rfl | hmem
          · exact ⟨rfl, rfl, val, List.mem_cons_self _ _, reason, rfl⟩
          · obtain ⟨h1, h2, val2, hval2, r2, hr2⟩ := ih v e hmem
            exact ⟨h1, h2, val2, List.mem_cons_of_mem _ hval2, r2, hr2⟩

theorem checkFieldType_any (f : String) (v : Value) :
    checkFieldType f v TypeSpec.any = (v, []) := by
  rw [checkFieldType]

theorem checkFieldType_scalar (f : String) (v : Value) (c : PyClass) :
    checkFieldType f v (TypeSpec.scalar c) =
      if v.isinstanceOf c then (v, [])
      else (Value.ellipsis,
            [{ field := f, message := Msg.typeMismatch c.name v.typeName,
               location := [Seg.s f] }]) := by
  rw [checkFieldType]

theorem checkFieldType_unsupported (f : String) (v : Value) :
    checkFieldType f v TypeSpec.unsupported =
      (Value.ellipsis,
       [{ field := f, message := Msg.unsupportedSpec, location := [Seg.s f] }]) := by
  rw [checkFieldType]

theorem checkFieldType_annotated (f : String) (v : Value) (base : TypeSpec)
    (vals : List Validator) :
    checkFieldType f v (TypeSpec.annotated base vals) =
      if (checkFieldType f v base).2 = [] then
        (if (chainSpec f (checkFieldType f v base).1 vals).2 = []
         then ((chainSpec f (checkFieldType f v base).1 vals).1, [])
         else (Value.ellipsis, (chainSpec f (checkFieldType f v base).1 vals).2))
      else (Value.ellipsis, (checkFieldType f v base).2) := by
  rw [checkFieldType]
  simp only [foldl_validatorStep_eq_chainSpec, List.nil_append]

theorem checkFieldType_list (f : String) (items : List Value) (itemT : TypeSpec) :
    checkFieldType f (Value.list items) (TypeSpec.listT itemT) =
      (Value.list (checkListItems f itemT items 0).1,
       (checkListItems f itemT items 0).2) := by
  rw [checkFieldType]

theorem checkFieldType_schema_dict (f : String) (kvs : List (String × Value))
    (name : String) (fields : List (String × TypeSpec)) :
    checkFieldType f (Value.dict kvs) (TypeSpec.schemaT name fields) =
      if (runValidation fields kvs).2 = []
      then (Value.inst name (runValidation fields kvs).1, [])
      else (Value.ellipsis,
            (runValidation fields kvs).2.map
              (fun e => { e with location := Seg.s f :: e.location })) := by
  rw [checkFieldType]

theorem checkFieldType_schema_inst (f : String) (n : String)
    (kvs : List (String × Value)) (name : String)
    (fields : List (String × TypeSpec)) :
    checkFieldType f (Value.inst n kvs) (TypeSpec.schemaT name fields) =
      if n = name then (Value.inst n kvs, [])
      else (Value.ellipsis,
            [{ field := f, message := Msg.unsupportedValueForRecord name n,
               location := [Seg.s f] }]) := by
  rw [checkFieldType]

theorem checkListItems_nil (f : String) (itemT : TypeSpec) (i : Nat) :
    checkListItems f itemT [] i = ([], []) := by
  rw [checkListItems]

theorem checkListItems_cons (f : String) (itemT : TypeSpec) (x : Value)
    (rest : List Value) (i : Nat) :
    checkListItems f itemT (x :: rest) i =
      (if (checkFieldType f x itemT).2 = []
       then ((checkFieldType f x itemT).1 :: (checkListItems f itemT rest (i + 1)).1,
             (checkListItems f itemT rest (i + 1)).2)
       else (Value.ellipsis :: (checkListItems f itemT rest (i + 1)).1,
             (checkFieldType f x itemT).2.map
                 (fun e => { e with location := insertIdx1 i e.location })
               ++ (checkListItems f itemT rest (i + 1)).2)) := by
  rw [checkListItems]

theorem runValidation_eq (plan : List (String × TypeSpec))
    (supplied : List (String × Value)) :
    runValidation plan supplied =
      ((validateAllowedFields plan supplied).1,
       validateMissingFields plan supplied
         ++ validateDisallowedFields plan supplied
         ++ (validateAllowedFields plan supplied).2) := by
  rw [runValidation]

theorem validateAllowedFields_nil (supplied : List (String × Value)) :
    validateAllowedFields [] supplied = ([], []) := by
  rw [validateAllowedFields]

theorem validateAllowedFields_cons (f : String) (t : TypeSpec)
    (rest : List (String × TypeSpec)) (supplied : List (String × Value)) :
    validateAllowedFields ((f, t) :: rest) supplied =
      (match lookupField supplied f with
       | Option.none => validateAllowedFields rest supplied
       | some v =>
           ((f, (checkFieldType f v t).1) :: (validateAllowedFields rest supplied).1,
            (checkFieldType f v t).2 ++ (validateAllowedFields rest supplied).2)) := by
  rw [validateAllowedFields]

theorem checkListItems_fst (f : String) (itemT : TypeSpec) :
    ∀ (items : List Value) (i : Nat),
      (checkListItems f itemT items i).1 =
        items.map (fun x =>
          if (checkFieldType f x itemT).2 = []
          then (checkFieldType f x itemT).1 else Value.ellipsis) := by
  intro items
  induction items with
  | nil => intro i; simp [checkListItems_nil]
  | cons x rest ih =>
      intro i
      rw [checkListItems_cons]
      by_cases h : (checkFieldType f x itemT).2 = [] <;> simp [h, ih]

theorem checkListItems_snd (f : String) (itemT : TypeSpec) :
    ∀ (items : List Value) (i : Nat),
      (checkListItems f itemT items i).2 =
        (items.enumFrom i).flatMap (fun p =>
          ((checkFieldType f p.2 itemT).2).map
            (fun e => { e with location := insertIdx1 p.1 e.location })) := by
  intro items
  induction items with
  | nil => intro i; simp [checkListItems_nil]
  | cons x rest ih =>
      intro i
      rw [checkListItems_cons]
      by_cases h : (checkFieldType f x itemT).2 = [] <;>
        simp [h, ih, List.enumFrom_cons]


theorem checkFieldType_listT_not_list (f : String) (v : Value) (itemT : TypeSpec)
    (h : v.isListV = false) :
    checkFieldType f v (TypeSpec.listT itemT) =
      (Value.ellipsis,
       [{ field := f, message := Msg.listTypeMismatch v.typeName,
          location := [Seg.s f] }]) := by
  cases v <;> simp_all [checkFieldType, Value.isListV]

theorem checkFieldType_schemaT_other (f : String) (v : Value) (name : String)
    (fields : List (String × TypeSpec)) (h1 : v.isDictV = false)
    (h2 : v.isInstV = false) :
    checkFieldType f v (TypeSpec.schemaT name fields) =
      (Value.ellipsis,
       [{ field := f, message := Msg.unsupportedValueForRecord name v.typeName,
          location := [Seg.s f] }]) := by
  cases v <;> simp_all [checkFieldType, Value.isDictV, Value.isInstV]

mutual

/-- Any error produced by entering the dispatcher at top-level field f
carries a location whose first segment is f, at every nesting depth. -/
theorem checkFieldTypeLocHead (f : String) (v : Value) (t : TypeSpec) :
    ∀ e ∈ (checkFieldType f v t).2, ∃ rest, e.location = Seg.s f :: rest := by
  match t with
  | TypeSpec.any =>
      intro e he
      rw [checkFieldType_any] at he
      simp at he
  | TypeSpec.annotated base vals =>
      intro e he
      rw [checkFieldType_annotated] at he
      by_cases hb : (checkFieldType f v base).2 = []
      · rw [if_pos hb] at he
        by_cases hc : (chainSpec f (checkFieldType f v base).1 vals).2 = []
        · rw [if_pos hc] at he; simp at he
        · rw [if_neg hc] at he
          obtain ⟨-, hloc, -⟩ := chainSpec_error_shape f vals (checkFieldType f v base).1 e he
          exact ⟨[], hloc⟩
      · rw [if_neg hb] at he
        exact checkFieldTypeLocHead f v base e he
  | TypeSpec.listT itemT =>
      intro e he
      by_cases hl : v.isListV = true
      · match v, hl with
        | Value.list items, _ =>
            rw [checkFieldType_list] at he
            exact checkListItemsLocHead f itemT items 0 e he
      · rw [checkFieldType_listT_not_list f v itemT (by simpa using hl)] at he
        simp at he
        exact ⟨[], by simp [he]⟩
  | TypeSpec.schemaT name fields =>
      intro e he
      match v with
      | Value.inst n kvs =>
          rw [checkFieldType_schema_inst] at he
          by_cases hn : n = name
          · rw [if_pos hn] at he; simp at he
          · rw [if_neg hn] at he
            simp at he
            exact ⟨[], by simp [he]⟩
      | Value.dict kvs =>
          rw [checkFieldType_schema_dict] at he
          by_cases hz : (runValidation fields kvs).2 = []
          · rw [if_pos hz] at he; simp at he
          · rw [if_neg hz] at he
            simp only [List.mem_map] at he
            obtain ⟨e2, -, rfl⟩ := he
            exact ⟨e2.location, rfl⟩
      | Value.int n =>
          rw [checkFieldType_schemaT_other f (Value.int n) name fields rfl rfl] at he
          simp at he; exact ⟨[], by simp [he]⟩
      | Value.bool b =>
          rw [checkFieldType_schemaT_other f (Value.bool b) name fields rfl rfl] at he
          simp at he; exact ⟨[], by simp [he]⟩
      | Value.float id =>
          rw [checkFieldType_schemaT_other f (Value.float id) name fields rfl rfl] at he
          simp at he; exact ⟨[], by simp [he]⟩
      | Value.str s =>
          rw [checkFieldType_schemaT_other f (Value.str s) name fields rfl rfl] at he
          simp at he; exact ⟨[], by simp [he]⟩
      | Value.none =>
          rw [checkFieldType_schemaT_other f Value.none name fields rfl rfl] at he
          simp at he; exact ⟨[], by simp [he]⟩
      | Value.ellipsis =>
          rw [checkFieldType_schemaT_other f Value.ellipsis name fields rfl rfl] at he
          simp at he; exact ⟨[], by simp [he]⟩
      | Value.list items =>
          rw [checkFieldType_schemaT_other f (Value.list items) name fields rfl rfl] at he
          simp at he; exact ⟨[], by simp [he]⟩
  | TypeSpec.scalar c =>
      intro e he
      rw [checkFieldType_scalar] at he
      by_cases hi : v.isinstanceOf c
      · rw [if_pos hi] at he; simp at he
      · rw [if_neg hi] at he
        simp at he
        exact ⟨[], by simp [he]⟩
  | TypeSpec.unsupported =>
      intro e he
      rw [checkFieldType_unsupported] at he
      simp at he
      exact ⟨[], by simp [he]⟩
termination_by (sizeOf t, 0)
decreasing_by
  all_goals simp_wf
  all_goals first
  | (apply Prod.Lex.right; omega)
  | (apply Prod.Lex.left; omega)

/-- Same invariant for the element loop of the list resolver. -/
theorem checkListItemsLocHead (f : String) (itemT : TypeSpec)
    (items : List Value) (i : Nat) :
    ∀ e ∈ (checkListItems f itemT items i).2,
      ∃ rest, e.location = Seg.s f :: rest := by
  match items with
  | [] =>
      intro e he
      rw [checkListItems_nil] at he
      simp at he
  | x :: rest =>
      intro e he
      rw [checkListItems_cons] at he
      by_cases h : (checkFieldType f x itemT).2 = []
      · rw [if_pos h] at he
        exact checkListItemsLocHead f itemT rest (i + 1) e he
      · rw [if_neg h] at he
        simp only [List.mem_append, List.mem_map] at he
        rcases he with ⟨e2, he2, rfl⟩ | hmem
        · obtain ⟨r2, hr2⟩ := checkFieldTypeLocHead f x itemT e2 he2
          exact ⟨Seg.i i :: r2, by simp [hr2, insertIdx1]⟩
        · exact checkListItemsLocHead f itemT rest (i + 1) e hmem
termination_by (sizeOf itemT, items.length + 1)
decreasing_by
  all_goals simp_wf
  all_goals first
  | (apply Prod.Lex.right; omega)
  | (apply Prod.Lex.left; omega)

end

theorem validateAllowedFields_error_source (plan : List (String × TypeSpec))
    (supplied : List (String × Value)) :
    ∀ e ∈ (validateAllowedFields plan supplied).2,
      ∃ g v t, (g, t) ∈ plan ∧ lookupField supplied g = some v ∧
        e ∈ (checkFieldType g v t).2 := by
  induction plan with
  | nil => intro e he; rw [validateAllowedFields_nil] at he; simp at he
  | cons p rest ih =>
      intro e he
      obtain ⟨f, t⟩ := p
      rw [validateAllowedFields_cons] at he
      cases hl : lookupField supplied f with
      | none =>
          rw [hl] at he
          obtain ⟨g, v2, t2, hmem, hup, hchk⟩ := ih e he
          exact ⟨g, v2, t2, List.mem_cons_of_mem _ hmem, hup, hchk⟩
      | some v =>
          rw [hl] at he
          simp only [List.mem_append] at he
          rcases he with hchk | htail
          · exact ⟨f, v, t, List.mem_cons_self _ _, hl, hchk⟩
          · obtain ⟨g, v2, t2, hmem, hup, hchk⟩ := ih e htail
            exact ⟨g, v2, t2, List.mem_cons_of_mem _ hmem, hup, hchk⟩

theorem runValidation_error_loc (plan : List (String × TypeSpec))
    (supplied : List (String × Value)) :
    ∀ e ∈ (runValidation plan supplied).2,
      ∃ g rest, e.location = Seg.s g :: rest := by
  intro e he
  rw [runValidation_eq] at he
  simp only [List.mem_append] at he
  rcases he with (hm | hd) | hf
  · simp only [validateMissingFields, List.mem_map] at hm
    obtain ⟨g, -, rfl⟩ := hm
    exact ⟨g, [], rfl⟩
  · simp only [validateDisallowedFields, List.mem_map] at hd
    obtain ⟨g, -, rfl⟩ := hd
    exact ⟨g, [], rfl⟩
  · obtain ⟨g, v, t, -, -, hchk⟩ := validateAllowedFields_error_source plan supplied e hf
    obtain ⟨rest, hrest⟩ := checkFieldTypeLocHead g v t e hchk
    exact ⟨g, rest, hrest⟩

mutual

/-- Errors of the MissingField / DisallowedField message classes that
come out of the recursive field check (as opposed to the top-level
reconciliation) always carry a location of at least two segments: they
can only arise inside a nested record, whose resolver prepends the
parent field name. -/
theorem checkFieldTypeReconcileLen (f : String) (v : Value) (t : TypeSpec) :
    ∀ e ∈ (checkFieldType f v t).2,
      (e.message = Msg.missingField ∨ e.message = Msg.disallowedField) →
      2 ≤ e.location.length := by
  match t with
  | TypeSpec.any =>
      intro e he
      rw [checkFieldType_any] at he
      simp at he
  | TypeSpec.annotated base vals =>
      intro e he hmsg
      rw [checkFieldType_annotated] at he
      by_cases hb : (checkFieldType f v base).2 = []
      · rw [if_pos hb] at he
        by_cases hc : (chainSpec f (checkFieldType f v base).1 vals).2 = []
        · rw [if_pos hc] at he; simp at he
        · rw [if_neg hc] at he
          obtain ⟨-, -, val, -, reason, hvm⟩ :=
            chainSpec_error_shape f vals (checkFieldType f v base).1 e he
          rw [hvm] at hmsg
          rcases hmsg with h | h <;> exact absurd h (by simp)
      · rw [if_neg hb] at he
        exact checkFieldTypeReconcileLen f v base e he hmsg
  | TypeSpec.listT itemT =>
      intro e he hmsg
      by_cases hl : v.isListV = true
      · match v, hl with
        | Value.list items, _ =>
            rw [checkFieldType_list] at he
            exact checkListItemsReconcileLen f itemT items 0 e he hmsg
      · rw [checkFieldType_listT_not_list f v itemT (by simpa using hl)] at he
        simp at he
        rw [he] at hmsg
        rcases hmsg with h | h <;> exact absurd h (by simp)
  | TypeSpec.schemaT name fields =>
      intro e he hmsg
      match v with
      | Value.inst n kvs =>
          rw [checkFieldType_schema_inst] at he
          by_cases hn : n = name
          · rw [if_pos hn] at he; simp at he
          · rw [if_neg hn] at he
            simp at he
            rw [he] at hmsg
            rcases hmsg with h | h <;> exact absurd h (by simp)
      | Value.dict kvs =>
          rw [checkFieldType_schema_dict] at he
          by_cases hz : (runValidation fields kvs).2 = []
          · rw [if_pos hz] at he; simp at he
          · rw [if_neg hz] at he
            simp only [List.mem_map] at he
            obtain ⟨e2, he2, rfl⟩ := he
            obtain ⟨g, rest, hloc⟩ := runValidation_error_loc fields kvs e2 he2
            simp [hloc]
      | Value.int n =>
          rw [checkFieldType_schemaT_other f (Value.int n) name fields rfl rfl] at he
          simp at he; rw [he] at hmsg
          rcases hmsg with h | h <;> exact absurd h (by simp)
      | Value.bool b =>
          rw [checkFieldType_schemaT_other f (Value.bool b) name fields rfl rfl] at he
          simp at he; rw [he] at hmsg
          rcases hmsg with h | h <;> exact absurd h (by simp)
      | Value.float id =>
          rw [checkFieldType_schemaT_other f (Value.float id) name fields rfl rfl] at he
          simp at he; rw [he] at hmsg
          rcases hmsg with h | h <;> exact absurd h (by simp)
      | Value.str s =>
          rw [checkFieldType_schemaT_other f (Value.str s) name fields rfl rfl] at he
          simp at he; rw [he] at hmsg
          rcases hmsg with h | h <;> exact absurd h (by simp)
      | Value.none =>
          rw [checkFieldType_schemaT_other f Value.none name fields rfl rfl] at he
          simp at he; rw [he] at hmsg
          rcases hmsg with h | h <;> exact absurd h (by simp)
      | Value.ellipsis =>
          rw [checkFieldType_schemaT_other f Value.ellipsis name fields rfl rfl] at he
          simp at he; rw [he] at hmsg
          rcases hmsg with h | h <;> exact absurd h (by simp)
      | Value.list items =>
          rw [checkFieldType_schemaT_other f (Value.list items) name fields rfl rfl] at he
          simp at he; rw [he] at hmsg
          rcases hmsg with h | h <;> exact absurd h (by simp)
  | TypeSpec.scalar c =>
      intro e he hmsg
      rw [checkFieldType_scalar] at he
      by_cases hi : v.isinstanceOf c
      · rw [if_pos hi] at he; simp at he
      · rw [if_neg hi] at he
        simp at he
        rw [he] at hmsg
        rcases hmsg with h | h <;> exact absurd h (by simp)
  | TypeSpec.unsupported =>
      intro e he hmsg
      rw [checkFieldType_unsupported] at he
      simp at he
      rw [he] at hmsg
      rcases hmsg with h | h <;> exact absurd h (by simp)
termination_by (sizeOf t, 0)
decreasing_by
  all_goals simp_wf
  all_goals first
  | (apply Prod.Lex.right; omega)
  | (apply Prod.Lex.left; omega)

/-- Same invariant for the element loop of the list resolver. -/
theorem checkListItemsReconcileLen (f : String) (itemT : TypeSpec)
    (items : List Value) (i : Nat) :
    ∀ e ∈ (checkListItems f itemT items i).2,
      (e.message = Msg.missingField ∨ e.message = Msg.disallowedField) →
      2 ≤ e.location.length := by
  match items with
  | [] =>
      intro e he
      rw [checkListItems_nil] at he
      simp at he
  | x :: rest =>
      intro e he hmsg
      rw [checkListItems_cons] at he
      by_cases h : (checkFieldType f x itemT).2 = []
      · rw [if_pos h] at he
        exact checkListItemsReconcileLen f itemT rest (i + 1) e he hmsg
      · rw [if_neg h] at he
        simp only [List.mem_append, List.mem_map] at he
        rcases he with ⟨e2, he2, rfl⟩ | hmem
        · obtain ⟨r2, hr2⟩ := checkFieldTypeLocHead f x itemT e2 he2
          simp [hr2, insertIdx1]
        · exact checkListItemsReconcileLen f itemT rest (i + 1) e hmem hmsg
termination_by (sizeOf itemT, items.length + 1)
decreasing_by
  all_goals simp_wf
  all_goals first
  | (apply Prod.Lex.right; omega)
  | (apply Prod.Lex.left; omega)

end

/-- C1, counterexample.  The claim states a scalar field accepts a value
iff its runtime type is exactly the declared type, and in particular
that a boolean is rejected where an integer field is declared.  The
source checks isinstance (schema.py line 172), and Python's bool is a
subclass of int, so the value True is accepted with zero errors by an
int field although its runtime type is not int. -/
theorem c1_counterexample :
    checkFieldType "field" (Value.bool true) (TypeSpec.scalar PyClass.int)
      = (Value.bool true, [])
    ∧ (Value.bool true).hasExactType PyClass.int = false := by
  constructor
  · rw [checkFieldType_scalar]; rfl
  · rfl

/-- C1, amended: a scalar field accepts a value (returned unchanged with
zero errors) iff the value is an instance of the declared class in
Python's sense — its runtime type is exactly the declared type, or the
declared type is int and the value is a bool (the one subclass
relation).  A rejected value yields one TypeMismatch error naming the
expected and actual types, with the one-element location, and the
ellipsis sentinel in place of a value.  The integer-where-float and
float-where-integer rejections claimed by the spec do hold. -/
theorem c1_scalar_accept (f : String) (v : Value) (c : PyClass) :
    ((checkFieldType f v (TypeSpec.scalar c)).2 = []
       ↔ (v.hasExactType c || (c == PyClass.int && v.hasExactType PyClass.bool)) = true)
    ∧ ((checkFieldType f v (TypeSpec.scalar c)).2 = []
         → checkFieldType f v (TypeSpec.scalar c) = (v, []))
    ∧ ((checkFieldType f v (TypeSpec.scalar c)).2 ≠ []
         → checkFieldType f v (TypeSpec.scalar c)
             = (Value.ellipsis,
                [{ field := f, message := Msg.typeMismatch c.name v.typeName,
                   location := [Seg.s f] }])) := by
  have htable : v.isinstanceOf c
      = (v.hasExactType c || (c == PyClass.int && v.hasExactType PyClass.bool)) := by
    cases v <;> cases c <;> rfl
  rw [checkFieldType_scalar]
  by_cases hi : v.isinstanceOf c
  · rw [if_pos hi]
    refine ⟨?_, fun _ => rfl, fun h => absurd rfl h⟩
    simp [← htable, hi]
  · rw [if_neg hi]
    refine ⟨?_, fun h => by simp at h, fun _ => rfl⟩
    simp only [← htable]
    constructor
    · intro h; simp at h
    · intro h; exact absurd h (by simpa using hi)

/-- C1 witness: an integer value supplied to a float-declared field is
rejected with a TypeMismatch error, through the amended theorem. -/
theorem c1_scalar_accept_witness :
    checkFieldType "field" (Value.int 3) (TypeSpec.scalar PyClass.float)
      = (Value.ellipsis,
         [{ field := "field", message := Msg.typeMismatch "float" "int",
            location := [Seg.s "field"] }]) := by
  have h := (c1_scalar_accept "field" (Value.int 3) PyClass.float).2.2
  rw [h (by rw [checkFieldType_scalar]; simp [Value.isinstanceOf])]
  rfl

/-- C6: when the base type check of an Annotated field produced any
errors, those errors are returned unchanged and the validator chain is
never invoked — the result does not depend on the validators at all
(the right-hand side does not mention them). -/
theorem c6_type_errors_short_circuit (f : String) (v : Value) (base : TypeSpec)
    (vals : List Validator) (h : (checkFieldType f v base).2 ≠ []) :
    checkFieldType f v (TypeSpec.annotated base vals)
      = (Value.ellipsis, (checkFieldType f v base).2) := by
  rw [checkFieldType_annotated, if_neg h]

/-- C6 witness: Annotated[int, v_positive_int] with the string "123"
yields only the TypeMismatch error; the validator is never consulted. -/
theorem c6_type_errors_short_circuit_witness :
    checkFieldType "field" (Value.str "123")
        (TypeSpec.annotated (TypeSpec.scalar PyClass.int) [vPositiveInt])
      = (Value.ellipsis,
         [{ field := "field", message := Msg.typeMismatch "int" "str",
            location := [Seg.s "field"] }]) := by
  rw [c6_type_errors_short_circuit "field" (Value.str "123")
        (TypeSpec.scalar PyClass.int) [vPositiveInt]
        (by rw [checkFieldType_scalar]; simp [Value.isinstanceOf])]
  rw [checkFieldType_scalar]
  rfl

/-- C4: behaviour of the validator chain once the base type check has
succeeded.  The chain recursion chainSpec makes the claimed properties
structural: validators run in declared order; on success the validator's
result becomes the running value (last conjunct); on failure exactly one
error with location [field], naming the validator and its reason, is
recorded, the running value is left unchanged for the remaining
validators, which are still invoked (third conjunct); after the chain,
if any validator failed all accumulated errors are returned and no
normalized value is produced (the ellipsis sentinel is returned), and if
none failed the fully transformed value is returned with no errors
(first conjunct). -/
theorem c4_validator_chain (f : String) (v : Value) (base : TypeSpec)
    (vals : List Validator) (h : (checkFieldType f v base).2 = []) :
    (checkFieldType f v (TypeSpec.annotated base vals)
       = if (chainSpec f (checkFieldType f v base).1 vals).2 = []
         then ((chainSpec f (checkFieldType f v base).1 vals).1, [])
         else (Value.ellipsis, (chainSpec f (checkFieldType f v base).1 vals).2))
    ∧ (∀ e ∈ (chainSpec f (checkFieldType f v base).1 vals).2,
         e.field = f ∧ e.location = [Seg.s f]
           ∧ ∃ val ∈ vals, ∃ reason, e.message = Msg.validatorFailure val.vname reason)
    ∧ (∀ (cur : Value) (val : Validator) (rest : List Validator) (reason : String),
         val.run cur = Except.error reason →
         chainSpec f cur (val :: rest)
           = ((chainSpec f cur rest).1,
              { field := f, message := Msg.validatorFailure val.vname reason,
                location := [Seg.s f] } :: (chainSpec f cur rest).2))
    ∧ (∀ (cur : Value) (val : Validator) (rest : List Validator) (v2 : Value),
         val.run cur = Except.ok v2 →
         chainSpec f cur (val :: rest) = chainSpec f v2 rest) := by
  refine ⟨?_, chainSpec_error_shape f vals (checkFieldType f v base).1, ?_, ?_⟩
  · rw [checkFieldType_annotated, if_pos h]
  · intro cur val rest reason hrun
    simp [chainSpec, hrun]
  · intro cur val rest v2 hrun
    simp [chainSpec, hrun]

/-- C4 witness: Annotated[int, v_even, v_double] on the odd value 3 —
v_even fails with one converted error, v_double still runs on the
retained value 3, and the field produces no normalized value. -/
theorem c4_validator_chain_witness :
    checkFieldType "field" (Value.int 3)
        (TypeSpec.annotated (TypeSpec.scalar PyClass.int) [vEven, vDouble])
      = (Value.ellipsis,
         [{ field := "field", message := Msg.validatorFailure "v_even" "odd value",
            location := [Seg.s "field"] }]) := by
  have h := (c4_validator_chain "field" (Value.int 3) (TypeSpec.scalar PyClass.int)
      [vEven, vDouble] (by rw [checkFieldType_scalar]; rfl)).1
  rw [h]
  rw [checkFieldType_scalar]
  simp [chainSpec, vEven, vDouble, Value.isinstanceOf,
        (by decide : ¬((3 : Int) % 2 = 0)), (by decide : ¬((2 : Int) ∣ 3))]

/-- C10: any exception a validator raises during its application is
caught (modelled by the validator returning an error result) and
converted into exactly one FieldValidationError with location [field],
whose message embeds the validator's name and the exception's message;
it never propagates as itself (the chain is a total function and every
error in the final result is such a converted record, first conjunct).
The second conjunct shows the conversion is one-to-one: each failing
application prepends exactly one converted error for that validator. -/
theorem c10_validator_exception_conversion (f : String) (v : Value)
    (base : TypeSpec) (vals : List Validator)
    (h : (checkFieldType f v base).2 = []) :
    (∀ e ∈ (checkFieldType f v (TypeSpec.annotated base vals)).2,
       e.field = f ∧ e.location = [Seg.s f]
         ∧ ∃ val ∈ vals, ∃ reason, e.message = Msg.validatorFailure val.vname reason)
    ∧ (∀ (cur : Value) (val : Validator) (rest : List Validator) (reason : String),
         val.run cur = Except.error reason →
         (chainSpec f cur (val :: rest)).2
           = { field := f, message := Msg.validatorFailure val.vname reason,
               location := [Seg.s f] } :: (chainSpec f cur rest).2) := by
  constructor
  · intro e he
    rw [checkFieldType_annotated, if_pos h] at he
    by_cases hc : (chainSpec f (checkFieldType f v base).1 vals).2 = []
    · rw [if_pos hc] at he; simp at he
    · rw [if_neg hc] at he
      exact chainSpec_error_shape f vals (checkFieldType f v base).1 e he
  · intro cur val rest reason hrun
    simp [chainSpec, hrun]

/-- C10 witness: a validator that always raises is converted into exactly
one error embedding its name and message. -/
theorem c10_validator_exception_conversion_witness :
    (chainSpec "f" (Value.int 1) [vBoom]).2
      = [{ field := "f", message := Msg.validatorFailure "v_boom" "kaboom",
           location := [Seg.s "f"] }] := by
  have h := (c10_validator_exception_conversion "f" (Value.int 1) TypeSpec.any []
      (by rw [checkFieldType_any])).2 (Value.int 1) vBoom [] "kaboom" rfl
  rw [h]
  simp [chainSpec, vBoom]

/-- C3, counterexample.  The claim states elements that produced an error
are not included in the result sequence and that the list's value is
discarded entirely if any element failed.  The source instead keeps the
list, placing the Ellipsis sentinel at each failed index (schema.py line
230), and the partial list is collected into the validated mapping. -/
theorem c3_counterexample :
    (checkFieldType "field"
        (Value.list [Value.int 1, Value.str "bad", Value.int 3])
        (TypeSpec.listT (TypeSpec.scalar PyClass.int))).1
      = Value.list [Value.int 1, Value.ellipsis, Value.int 3]
    ∧ (checkFieldType "field"
        (Value.list [Value.int 1, Value.str "bad", Value.int 3])
        (TypeSpec.listT (TypeSpec.scalar PyClass.int))).2
      = [{ field := "field", message := Msg.typeMismatch "int" "str",
           location := [Seg.s "field", Seg.i 1] }]
    ∧ (runValidation [("field", TypeSpec.listT (TypeSpec.scalar PyClass.int))]
         [("field", Value.list [Value.int 1, Value.str "bad", Value.int 3])]).1
      = [("field", Value.list [Value.int 1, Value.ellipsis, Value.int 3])] := by
  refine ⟨?_, ?_, ?_⟩ <;>
    simp [runValidation_eq, validateMissingFields, validateDisallowedFields,
          validateAllowedFields_cons, validateAllowedFields_nil, lookupField,
          checkFieldType_list, checkListItems_cons, checkListItems_nil,
          checkFieldType_scalar, Value.isinstanceOf, PyClass.name,
          Value.typeName, insertIdx1]

/-- C3, amended: for a list-typed field whose supplied value is a
sequence, the result value is a list of the same length in which every
successfully-checked element appears at its original index and every
element that produced an error is replaced by the Ellipsis sentinel (the
list is kept, not discarded); the errors from all indices are collected,
in index order, without fail-fast, each with the element's index
inserted as the second location segment. -/
theorem c3_list_partial_result (f : String) (itemT : TypeSpec)
    (items : List Value) :
    checkFieldType f (Value.list items) (TypeSpec.listT itemT)
      = (Value.list (items.map (fun x =>
           if (checkFieldType f x itemT).2 = []
           then (checkFieldType f x itemT).1 else Value.ellipsis)),
         (items.enum).flatMap (fun p =>
           ((checkFieldType f p.2 itemT).2).map
             (fun e => { e with location := insertIdx1 p.1 e.location }))) := by
  rw [checkFieldType_list, checkListItems_fst, checkListItems_snd]
  rfl

/-- C5: for a field declared List(Record), each child record failure is
emitted as its own separately path-prefixed error, with the location
composed index-then-field: the child error's location (which itself
starts with the child field name, third conjunct) is prefixed by the
parent field name and then the list index, giving [field, i, c, ...].
The second conjunct shows the unwrap is error-per-child-failure, never a
single wrapping error: the element's errors are exactly the child
record's errors, each re-path-prefixed individually. -/
theorem c5_list_of_records_paths (f name : String)
    (fields : List (String × TypeSpec)) (items : List Value) (i : Nat)
    (kvs : List (String × Value)) (e : FieldValidationError)
    (h1 : items[i]? = some (Value.dict kvs))
    (h2 : e ∈ (runValidation fields kvs).2) :
    ({ field := e.field, message := e.message,
       location := Seg.s f :: Seg.i i :: e.location } : FieldValidationError)
      ∈ (checkFieldType f (Value.list items)
           (TypeSpec.listT (TypeSpec.schemaT name fields))).2
    ∧ checkFieldType f (Value.dict kvs) (TypeSpec.schemaT name fields)
        = (Value.ellipsis,
           (runValidation fields kvs).2.map
             (fun e2 => { e2 with location := Seg.s f :: e2.location }))
    ∧ ∃ c rest, e.location = Seg.s c :: rest := by
  have hne : (runValidation fields kvs).2 ≠ [] := by
    intro hnil
    rw [hnil] at h2
    simp at h2
  have hdict : checkFieldType f (Value.dict kvs) (TypeSpec.schemaT name fields)
      = (Value.ellipsis,
         (runValidation fields kvs).2.map
           (fun e2 => { e2 with location := Seg.s f :: e2.location })) := by
    rw [checkFieldType_schema_dict, if_neg hne]
  refine ⟨?_, hdict, runValidation_error_loc fields kvs e h2⟩
  rw [checkFieldType_list, checkListItems_snd]
  apply List.mem_flatMap.mpr
  refine ⟨(i, Value.dict kvs), ?_, ?_⟩
  · exact List.mem_enum_iff_getElem?.mpr h1
  · apply List.mem_map.mpr
    refine ⟨{ e with location := Seg.s f :: e.location }, ?_, ?_⟩
    · rw [hdict]
      exact List.mem_map.mpr ⟨e, h2, rfl⟩
    · simp [insertIdx1]

/-- C5 witness: the specification's own example — items: List(Item),
Item = (sku: str, qty: int), first element has a bad qty — yields the
child error re-emitted at location [items, 0, qty]. -/
theorem c5_list_of_records_paths_witness :
    ({ field := "qty", message := Msg.typeMismatch "int" "str",
       location := [Seg.s "items", Seg.i 0, Seg.s "qty"] } : FieldValidationError)
      ∈ (checkFieldType "items"
           (Value.list
             [Value.dict [("sku", Value.str "A1"), ("qty", Value.str "bad")],
              Value.dict [("sku", Value.int 123), ("qty", Value.int 10)]])
           (TypeSpec.listT (TypeSpec.schemaT "Item"
             [("sku", TypeSpec.scalar PyClass.str),
              ("qty", TypeSpec.scalar PyClass.int)]))).2 := by
  have h := (c5_list_of_records_paths "items" "Item"
      [("sku", TypeSpec.scalar PyClass.str), ("qty", TypeSpec.scalar PyClass.int)]
      [Value.dict [("sku", Value.str "A1"), ("qty", Value.str "bad")],
       Value.dict [("sku", Value.int 123), ("qty", Value.int 10)]]
      0 [("sku", Value.str "A1"), ("qty", Value.str "bad")]
      { field := "qty", message := Msg.typeMismatch "int" "str",
        location := [Seg.s "qty"] }
      rfl ?_).1
  · exact h
  · simp [runValidation_eq, validateMissingFields, validateDisallowedFields,
          validateAllowedFields_cons, validateAllowedFields_nil, lookupField,
          checkFieldType_scalar, Value.isinstanceOf, PyClass.name, Value.typeName]

theorem validateAllowedFields_keys (plan : List (String × TypeSpec))
    (supplied : List (String × Value)) :
    (validateAllowedFields plan supplied).1.map Prod.fst
      = (plan.map Prod.fst).filter (fun g => (lookupField supplied g).isSome) := by
  induction plan with
  | nil => simp [validateAllowedFields_nil]
  | cons p rest ih =>
      obtain ⟨f, t⟩ := p
      rw [validateAllowedFields_cons]
      cases hl : lookupField supplied f with
      | none => simp [hl, ih]
      | some v => simp [hl, ih]

theorem validateAllowedFields_lookup (plan : List (String × TypeSpec))
    (supplied : List (String × Value)) (hnd : (plan.map Prod.fst).Nodup)
    (f : String) (t : TypeSpec) (v : Value) (hp : (f, t) ∈ plan)
    (hs : lookupField supplied f = some v) :
    lookupField (validateAllowedFields plan supplied).1 f
      = some (checkFieldType f v t).1 := by
  induction plan with
  | nil => simp at hp
  | cons p rest ih =>
      obtain ⟨g, t0⟩ := p
      simp only [List.map_cons, List.nodup_cons] at hnd
      rw [validateAllowedFields_cons]
      rcases List.mem_cons.mp hp with heq | hmem
      · obtain ⟨hf, ht⟩ := Prod.mk.injEq .. ▸ heq
        subst hf; subst ht
        rw [hs]
        simp [lookupField]
      · have hfg : f ≠ g := by
          intro h
          subst h
          exact hnd.1 (List.mem_map.mpr ⟨(f, t), hmem, rfl⟩)
        cases hl : lookupField supplied g with
        | none => exact ih hnd.2 hmem
        | some w =>
            have htail := ih hnd.2 hmem
            simp only [lookupField, List.find?]
            have : (g == f) = false := by
              simp [beq_eq_false_iff_ne]
              exact fun h => hfg h.symm
            rw [this]
            exact htail

/-- C2, counterexample.  The claim states a field whose check produced
any error is absent from the validated mapping (present in at most one
of validated/errors).  The source stores the check's returned value
unconditionally (schema.py line 130), so a failed field is present in
the validated mapping, bound to the Ellipsis sentinel, while also
producing an error. -/
theorem c2_counterexample :
    (runValidation [("a", TypeSpec.scalar PyClass.int)] [("a", Value.str "x")]).1
      = [("a", Value.ellipsis)]
    ∧ (runValidation [("a", TypeSpec.scalar PyClass.int)] [("a", Value.str "x")]).2
      = [{ field := "a", message := Msg.typeMismatch "int" "str",
           location := [Seg.s "a"] }] := by
  constructor <;>
    simp [runValidation_eq, validateMissingFields, validateDisallowedFields,
          validateAllowedFields_cons, validateAllowedFields_nil, lookupField,
          checkFieldType_scalar, Value.isinstanceOf, PyClass.name, Value.typeName]

/-- C2, amended: validate_fields returns a validated mapping whose keys
are exactly the fields present in both the supplied mapping and the
plan, each bound to the first component the check returned — which is
the Ellipsis sentinel (or a structure containing it) when the check
failed, and the normalized value when the check produced no errors.  A
failed field is therefore present in both the validated mapping and the
error list; a field's genuine value is collected only when its error
list is empty. -/
theorem c2_validated_mapping (plan : List (String × TypeSpec))
    (supplied : List (String × Value)) (hnd : (plan.map Prod.fst).Nodup) :
    ((validateAllowedFields plan supplied).1.map Prod.fst
       = (plan.map Prod.fst).filter (fun g => (lookupField supplied g).isSome))
    ∧ (∀ f t v, (f, t) ∈ plan → lookupField supplied f = some v →
         lookupField (validateAllowedFields plan supplied).1 f
           = some (checkFieldType f v t).1)
    ∧ (runValidation plan supplied).1 = (validateAllowedFields plan supplied).1 := by
  refine ⟨validateAllowedFields_keys plan supplied, ?_, by rw [runValidation_eq]⟩
  intro f t v hp hs
  exact validateAllowedFields_lookup plan supplied hnd f t v hp hs

/-- C2 witness: the failed field a is still present in the validated
mapping, bound to the Ellipsis sentinel. -/
theorem c2_validated_mapping_witness :
    lookupField (validateAllowedFields [("a", TypeSpec.scalar PyClass.int)]
        [("a", Value.str "x")]).1 "a" = some Value.ellipsis := by
  have h := (c2_validated_mapping [("a", TypeSpec.scalar PyClass.int)]
      [("a", Value.str "x")] (by simp)).2.1 "a" (TypeSpec.scalar PyClass.int)
      (Value.str "x") (by simp) (by simp [lookupField])
  rw [h, checkFieldType_scalar]
  rfl

theorem lookupField_isSome_iff (supplied : List (String × Value)) (g : String) :
    (lookupField supplied g).isSome = true ↔ g ∈ supplied.map Prod.fst := by
  have hsame : (lookupField supplied g).isSome
      = (List.find? (fun p => p.1 == g) supplied).isSome := by
    simp only [lookupField]
    cases List.find? (fun p => p.1 == g) supplied <;> rfl
  rw [hsame, List.find?_isSome]
  constructor
  · rintro ⟨p, hp, hpg⟩
    simp only [beq_iff_eq] at hpg
    exact List.mem_map.mpr ⟨p, hp, hpg⟩
  · intro hmem
    obtain ⟨p, hp, rfl⟩ := List.mem_map.mp hmem
    exact ⟨p, hp, by simp⟩

theorem runValidation_ok_keys (plan : List (String × TypeSpec))
    (supplied : List (String × Value))
    (h : (runValidation plan supplied).2 = []) :
    (runValidation plan supplied).1.map Prod.fst = plan.map Prod.fst := by
  rw [runValidation_eq] at h
  simp only [List.append_eq_nil] at h
  obtain ⟨⟨hm, -⟩, -⟩ := h
  rw [runValidation_eq]
  simp only
  rw [validateAllowedFields_keys]
  apply List.filter_eq_self.mpr
  intro g hg
  simp only [validateMissingFields, List.map_eq_nil_iff, List.filter_eq_nil_iff] at hm
  have := hm g hg
  simp only [Bool.not_eq_true', Bool.not_eq_false] at this
  rw [lookupField_isSome_iff]
  simpa using this

/-- C8: the aggregate ValidationError is raised iff at least one
field-level error exists; with zero errors the call returns a fully
instantiated record — an instance whose attribute mapping is exactly
the validated mapping, with every declared field set; when it raises,
the Except carries only the errors, so no partially-populated instance
is observable by the caller (the instance the source mutates before
raising never escapes __init__). -/
theorem c8_raise_iff_errors (name : String) (plan : List (String × TypeSpec))
    (supplied : List (String × Value)) :
    (∀ es, validateSchema name plan supplied = Except.error es →
       es ≠ [] ∧ es = (runValidation plan supplied).2)
    ∧ (∀ inst, validateSchema name plan supplied = Except.ok inst →
       (runValidation plan supplied).2 = []
       ∧ inst = Value.inst name (runValidation plan supplied).1
       ∧ (runValidation plan supplied).1.map Prod.fst = plan.map Prod.fst)
    ∧ ((runValidation plan supplied).2 = []
         ↔ ∃ inst, validateSchema name plan supplied = Except.ok inst) := by
  by_cases h : (runValidation plan supplied).2 = []
  · refine ⟨?_, ?_, ?_⟩
    · intro es hes
      simp [validateSchema, h] at hes
    · intro inst hinst
      simp only [validateSchema, h, if_pos] at hinst
      refine ⟨h, ?_, runValidation_ok_keys plan supplied h⟩
      injection hinst with h2
      exact h2.symm
    · simp [validateSchema, h]
  · refine ⟨?_, ?_, ?_⟩
    · intro es hes
      simp only [validateSchema, h, if_neg, if_false] at hes
      injection hes with h2
      exact ⟨h2 ▸ h, h2.symm⟩
    · intro inst hinst
      simp [validateSchema, h] at hinst
    · simp [validateSchema, h]

/-- C8 witness: a fully valid input yields a fully instantiated record
whose attributes are the validated mapping and cover every declared
field. -/
theorem c8_raise_iff_errors_witness :
    (runValidation [("field", TypeSpec.scalar PyClass.int)]
        [("field", Value.int 3)]).2 = []
    ∧ Value.inst "S" [("field", Value.int 3)]
        = Value.inst "S" (runValidation [("field", TypeSpec.scalar PyClass.int)]
            [("field", Value.int 3)]).1
    ∧ (runValidation [("field", TypeSpec.scalar PyClass.int)]
        [("field", Value.int 3)]).1.map Prod.fst
        = [("field", TypeSpec.scalar PyClass.int)].map Prod.fst := by
  refine (c8_raise_iff_errors "S" [("field", TypeSpec.scalar PyClass.int)]
      [("field", Value.int 3)]).2.1 (Value.inst "S" [("field", Value.int 3)]) ?_
  simp [validateSchema, runValidation_eq, validateMissingFields,
        validateDisallowedFields, validateAllowedFields_cons,
        validateAllowedFields_nil, lookupField, checkFieldType_scalar,
        Value.isinstanceOf]

/-- C9: once an error reaches the top-level caller its location is never
empty and its first segment is the top-level field name under which
validation entered: every error the dispatcher produces for field f has
a location beginning with f, at any nesting depth of lists and records
(first conjunct), and every error of the whole validation pass has a
non-empty location headed by a field-name segment (second conjunct). -/
theorem c9_location_head (f : String) (v : Value) (t : TypeSpec)
    (plan : List (String × TypeSpec)) (supplied : List (String × Value)) :
    (∀ e ∈ (checkFieldType f v t).2, ∃ rest, e.location = Seg.s f :: rest)
    ∧ (∀ e ∈ (runValidation plan supplied).2,
         e.location ≠ [] ∧ ∃ g rest, e.location = Seg.s g :: rest) := by
  refine ⟨checkFieldTypeLocHead f v t, fun e he => ?_⟩
  obtain ⟨g, rest, hloc⟩ := runValidation_error_loc plan supplied e he
  exact ⟨by simp [hloc], g, rest, hloc⟩

/-- C9 witness: the deeply nested error of the list-of-records example
has a non-empty location headed by the top-level field name items. -/
theorem c9_location_head_witness :
    ∃ rest,
      ({ field := "qty", message := Msg.typeMismatch "int" "str",
         location := [Seg.s "items", Seg.i 0, Seg.s "qty"] } : FieldValidationError).location
        = Seg.s "items" :: rest := by
  refine (c9_location_head "items"
      (Value.list [Value.dict [("sku", Value.str "A1"), ("qty", Value.str "bad")]])
      (TypeSpec.listT (TypeSpec.schemaT "Item"
        [("sku", TypeSpec.scalar PyClass.str), ("qty", TypeSpec.scalar PyClass.int)]))
      [] []).1 _ ?_
  simp [checkFieldType_list, checkListItems_cons, checkListItems_nil,
        checkFieldType_schema_dict, runValidation_eq, validateMissingFields,
        validateDisallowedFields, validateAllowedFields_cons,
        validateAllowedFields_nil, lookupField, checkFieldType_scalar,
        Value.isinstanceOf, PyClass.name, Value.typeName, insertIdx1]

theorem length_filter_not_contains_eq_card_sdiff (l m : List String)
    (h : l.Nodup) :
    (l.filter (fun a => !(m.contains a))).length
      = (l.toFinset \ m.toFinset).card := by
  have h1 : (l.filter (fun a => !(m.contains a))).toFinset
      = l.toFinset \ m.toFinset := by
    ext a
    simp [List.mem_filter, Finset.mem_sdiff, and_comm]
  rw [← h1]
  exact (List.toFinset_card_of_nodup (h.filter _)).symm

theorem countP_validateMissingFields (plan : List (String × TypeSpec))
    (supplied : List (String × Value)) :
    (validateMissingFields plan supplied).countP
        (fun e => (e.message == Msg.missingField
                    || e.message == Msg.disallowedField)
                  && (e.location.length == 1))
      = ((plan.map Prod.fst).filter
          (fun g => !((supplied.map Prod.fst).contains g))).length := by
  rw [validateMissingFields, List.countP_map]
  apply List.countP_eq_length.mpr
  intro a _
  simp

theorem countP_validateDisallowedFields (plan : List (String × TypeSpec))
    (supplied : List (String × Value)) :
    (validateDisallowedFields plan supplied).countP
        (fun e => (e.message == Msg.missingField
                    || e.message == Msg.disallowedField)
                  && (e.location.length == 1))
      = ((supplied.map Prod.fst).filter
          (fun g => !((plan.map Prod.fst).contains g))).length := by
  rw [validateDisallowedFields, List.countP_map]
  apply List.countP_eq_length.mpr
  intro a _
  simp

theorem countP_validateAllowedFields_zero (plan : List (String × TypeSpec))
    (supplied : List (String × Value)) :
    (validateAllowedFields plan supplied).2.countP
        (fun e => (e.message == Msg.missingField
                    || e.message == Msg.disallowedField)
                  && (e.location.length == 1))
      = 0 := by
  apply List.countP_eq_zero.mpr
  intro e he
  obtain ⟨g, v, t, -, -, hchk⟩ :=
    validateAllowedFields_error_source plan supplied e he
  simp only [Bool.and_eq_true, Bool.or_eq_true, beq_iff_eq, not_and, Nat.beq_eq]
  intro hmsg
  have := checkFieldTypeReconcileLen g v t e hchk hmsg
  omega

/-- C7, counterexample.  The claim counts all MissingField plus
DisallowedField errors, but a nested record contributes its own
missing-field errors (with longer locations): for plan a: S with S
declaring b: int, and supplied a: {} plus an extra x, the claimed count
is |declared − supplied| + |supplied − declared| = 1, yet two errors of
those message classes occur, one of them with two-segment location
[a, b], contradicting location == [field] as well. -/
theorem c7_counterexample :
    (runValidation
        [("a", TypeSpec.schemaT "S" [("b", TypeSpec.scalar PyClass.int)])]
        [("a", Value.dict []), ("x", Value.int 1)]).2.countP
        (fun e => (e.message == Msg.missingField
                    || e.message == Msg.disallowedField))
      = 2
    ∧ (((["a"] : List String).toFinset \ (["a", "x"] : List String).toFinset).card
        + ((["a", "x"] : List String).toFinset \ (["a"] : List String).toFinset).card)
      = 1
    ∧ ({ field := "b", message := Msg.missingField,
         location := [Seg.s "a", Seg.s "b"] } : FieldValidationError)
        ∈ (runValidation
            [("a", TypeSpec.schemaT "S" [("b", TypeSpec.scalar PyClass.int)])]
            [("a", Value.dict []), ("x", Value.int 1)]).2 := by
  refine ⟨?_, by decide, ?_⟩ <;>
    simp [runValidation_eq, validateMissingFields, validateDisallowedFields,
          validateAllowedFields_cons, validateAllowedFields_nil, lookupField,
          checkFieldType_schema_dict, List.countP_cons, List.countP_nil,
          Value.isinstanceOf, PyClass.name, Value.typeName]

/-- C7, amended: restricted to the reconciliation errors — those of the
MissingField / DisallowedField message classes whose location is a
one-element path — the count equals |declared − supplied| +
|supplied − declared|, one error per such field name with location
[field] (second conjunct); nested-record recursion can only contribute
errors of these message classes with locations of two or more segments,
which the first conjunct's restriction excludes. -/
theorem c7_reconciliation_count (plan : List (String × TypeSpec))
    (supplied : List (String × Value))
    (h1 : (plan.map Prod.fst).Nodup) (h2 : (supplied.map Prod.fst).Nodup) :
    (runValidation plan supplied).2.countP
        (fun e => (e.message == Msg.missingField
                    || e.message == Msg.disallowedField)
                  && (e.location.length == 1))
      = ((plan.map Prod.fst).toFinset \ (supplied.map Prod.fst).toFinset).card
        + ((supplied.map Prod.fst).toFinset \ (plan.map Prod.fst).toFinset).card
    ∧ (∀ e ∈ validateMissingFields plan supplied
             ++ validateDisallowedFields plan supplied,
         e.location = [Seg.s e.field]) := by
  constructor
  · rw [runValidation_eq]
    simp only [List.countP_append]
    rw [countP_validateMissingFields, countP_validateDisallowedFields,
        countP_validateAllowedFields_zero,
        length_filter_not_contains_eq_card_sdiff _ _ h1,
        length_filter_not_contains_eq_card_sdiff _ _ h2]
    omega
  · intro e he
    rcases List.mem_append.mp he with hm | hd
    · simp only [validateMissingFields, List.mem_map] at hm
      obtain ⟨g, -, rfl⟩ := hm
      rfl
    · simp only [validateDisallowedFields, List.mem_map] at hd
      obtain ⟨g, -, rfl⟩ := hd
      rfl

/-- C7 witness: one declared-but-missing field and one supplied-but-
undeclared field yield exactly two reconciliation errors. -/
theorem c7_reconciliation_count_witness :
    (runValidation [("a", TypeSpec.scalar PyClass.int)]
        [("x", Value.int 1)]).2.countP
        (fun e => (e.message == Msg.missingField
                    || e.message == Msg.disallowedField)
                  && (e.location.length == 1))
      = (((["a"] : List String).toFinset \ (["x"] : List String).toFinset).card
          + ((["x"] : List String).toFinset \ (["a"] : List String).toFinset).card) := by
  exact (c7_reconciliation_count [("a", TypeSpec.scalar PyClass.int)]
      [("x", Value.int 1)] (by simp) (by simp)).1
